import Mathlib

/-!
Verification of the memory-exercise scoring and aggregation core
(backend/app/models/memory_exercise.py, backend/app/services/memory_exercise_service.py,
backend/app/schemas/memory_exercise.py).

Conventions of the shallow embedding:
  * Python floats are modelled as rationals.
  * The schema-less JSON `config` blob is modelled by `ConfigBlob`; an outer
    `Option` on a field is `none` when the key is absent from the blob.
    For `time_limit_ms`, whose pydantic declaration is `Optional[int]`, the
    inner `Option` is `none` when the key is present with a JSON null
    (Python `None`), mirroring `MemoryExerciseConfig.model_dump()` output.
  * Operations that can raise a Python `TypeError` (an ordering comparison
    against `None`) return `Except Unit`; `Except.error ()` is a raised
    exception, `Except.ok` is a normal return.
  * Telemetry counters are natural numbers (the spec restricts them to
    non-negative integers).
-/

/-- JSON configuration blob as read by the scoring engine: the keys
`time_weight`, `accuracy_weight` and `time_limit_ms` of the stored dict.
Grid/sequence/color keys of the blob are never read by the scoring or
aggregation code and are not represented. -/
structure ConfigBlob where
  time_weight : Option ℚ
  accuracy_weight : Option ℚ
  time_limit_ms : Option (Option ℤ)
deriving Repr, DecidableEq

/-- Pydantic `MemoryExerciseConfig` (schemas/memory_exercise.py), restricted to
the fields the modelled logic reads. `time_weight` and `accuracy_weight` have
schema defaults 0.5 and are always plain floats; `time_limit_ms` is
`Optional[int] = None`. -/
structure MemoryExerciseConfig where
  exercise_type : String
  difficulty : String
  time_limit_ms : Option ℤ
  time_weight : ℚ := 1/2
  accuracy_weight : ℚ := 1/2
deriving Repr, DecidableEq

/-- Detailed score breakdown dict returned by `generate_score_breakdown`. -/
structure Breakdown where
  accuracy : ℚ
  accuracy_score : ℚ
  time_score : ℚ
  time_elapsed_ms : ℕ
  total_moves : ℕ
  correct_moves : ℕ
  incorrect_moves : ℕ
  max_sequence : Option ℕ
  difficulty_multiplier : ℚ
  final_score : ℚ
deriving Repr, DecidableEq

/-- Persisted `MemoryExerciseSession` row (models/memory_exercise.py).
Timestamps are abstract ticks (ℕ). -/
structure MemoryExerciseSession where
  user_id : ℤ
  exercise_id : Option ℤ
  exercise_type : String
  difficulty : String
  config : ConfigBlob
  is_completed : Bool
  completed_at : Option ℕ
  total_moves : ℕ
  correct_moves : ℕ
  incorrect_moves : ℕ
  time_elapsed_ms : ℕ
  max_sequence_reached : Option ℕ
  final_score : Option ℚ
  score_breakdown : Option Breakdown
  created_at : ℕ
deriving Repr, DecidableEq

/-- Accuracy percentage, `MemoryExerciseSession.get_accuracy`. -/
def get_accuracy (s : MemoryExerciseSession) : ℚ :=
  if s.total_moves = 0 then 0
  else (s.correct_moves : ℚ) / (s.total_moves : ℚ) * 100

/-- Value of `config.get("time_limit_ms", 60000)`: the default 60000 applies
only when the key is absent; a key stored with JSON null yields Python `None`
(the resulting `none`). -/
def get_time_limit (c : ConfigBlob) : Option ℤ :=
  match c.time_limit_ms with
  | none => some 60000
  | some v => v

/-- Time-score computation inside `calculate_score`. Python evaluates
`self.time_elapsed_ms > 0 and time_limit > 0` left to right, so when
`time_elapsed_ms == 0` the comparison of a `None` limit is never reached;
when it is reached with a `None` limit a `TypeError` is raised. -/
def calcTimeScore (s : MemoryExerciseSession) : Except Unit ℚ :=
  if 0 < s.time_elapsed_ms then
    match get_time_limit s.config with
    | none => Except.error ()
    | some time_limit =>
      if 0 < time_limit then
        Except.ok ((1 - min 1 ((s.time_elapsed_ms : ℚ) / (time_limit : ℚ))) * 100)
      else
        Except.ok 0
  else
    Except.ok 0

/-- Sequence bonus of `calculate_score`. Python truthiness of
`self.max_sequence_reached`: `None` and `0` are falsy. -/
def sequence_bonus (s : MemoryExerciseSession) : ℚ :=
  match s.max_sequence_reached with
  | none => 0
  | some m =>
    if s.exercise_type = "sequence_memory" ∧ m ≠ 0 then
      min 20 ((m : ℚ) * 2)
    else 0

/-- Difficulty multiplier dict lookup with default 1.0,
`difficulty_multipliers.get(self.difficulty, 1.0)`. -/
def difficulty_multiplier (difficulty : String) : ℚ :=
  if difficulty = "easy" then 1.0
  else if difficulty = "medium" then 1.2
  else if difficulty = "hard" then 1.5
  else if difficulty = "expert" then 2.0
  else 1.0

/-- `MemoryExerciseSession.calculate_score`, with the intermediate Python
names substituted in: the weights are `config.get("...", 0.5)`, the base
score is accuracy times accuracy weight plus time score times time weight,
and the final value is the once-capped product with the difficulty
multiplier. -/
def calculate_score (s : MemoryExerciseSession) : Except Unit ℚ :=
  if s.is_completed = false ∨ s.total_moves = 0 then Except.ok 0
  else
    match calcTimeScore s with
    | Except.error e => Except.error e
    | Except.ok time_score =>
      Except.ok (min 100 ((get_accuracy s * s.config.accuracy_weight.getD (1/2) +
        time_score * s.config.time_weight.getD (1/2) + sequence_bonus s) *
        difficulty_multiplier s.difficulty))

/-- `MemoryExerciseSession.generate_score_breakdown`. The guard
`if time_limit > 0 else 0` compares the limit before any division, and raises
a `TypeError` when the stored limit is `None`. -/
def generate_score_breakdown (s : MemoryExerciseSession) : Except Unit Breakdown :=
  match get_time_limit s.config with
  | none => Except.error ()
  | some time_limit =>
    let r := if 0 < time_limit then min 1 ((s.time_elapsed_ms : ℚ) / (time_limit : ℚ)) else 0
    Except.ok {
      accuracy := get_accuracy s
      accuracy_score := get_accuracy s * s.config.accuracy_weight.getD (1/2)
      time_score := (1 - r) * 100 * s.config.time_weight.getD (1/2)
      time_elapsed_ms := s.time_elapsed_ms
      total_moves := s.total_moves
      correct_moves := s.correct_moves
      incorrect_moves := s.incorrect_moves
      max_sequence := s.max_sequence_reached
      difficulty_multiplier := difficulty_multiplier s.difficulty
      final_score := s.final_score.getD 0
    }

/-- Session value used in small sanity checks below. -/
def sanitySession : MemoryExerciseSession where
  user_id := 1
  exercise_id := none
  exercise_type := "memory_cards"
  difficulty := "easy"
  config := ⟨none, none, none⟩
  is_completed := true
  completed_at := some 1
  total_moves := 10
  correct_moves := 8
  incorrect_moves := 2
  time_elapsed_ms := 0
  max_sequence_reached := none
  final_score := none
  score_breakdown := none
  created_at := 0

example : get_accuracy sanitySession = 80 := by norm_num [get_accuracy, sanitySession]

example : calculate_score sanitySession = Except.ok 40 := by
  norm_num [calculate_score, calcTimeScore, get_time_limit, get_accuracy, sequence_bonus,
    difficulty_multiplier, sanitySession]

/-- Output of `MemoryExerciseConfig.model_dump()` as stored in the `config`
column by `create_session`: every key is present; an unset `time_limit_ms`
is stored as JSON null. -/
def model_dump (c : MemoryExerciseConfig) : ConfigBlob where
  time_weight := some c.time_weight
  accuracy_weight := some c.accuracy_weight
  time_limit_ms := some c.time_limit_ms

/-- `MemoryExerciseService.create_session`: a fresh row with zeroed telemetry,
`is_completed=False`, and `exercise_type`/`difficulty` copied out of the
config. Database-assigned id and timestamps are abstracted to 0. -/
def create_session (user_id : ℤ) (exercise_id : Option ℤ) (c : MemoryExerciseConfig) :
    MemoryExerciseSession where
  user_id := user_id
  exercise_id := exercise_id
  exercise_type := c.exercise_type
  difficulty := c.difficulty
  config := model_dump c
  is_completed := false
  completed_at := none
  total_moves := 0
  correct_moves := 0
  incorrect_moves := 0
  time_elapsed_ms := 0
  max_sequence_reached := none
  final_score := none
  score_breakdown := none
  created_at := 0

/-- Pydantic `MemoryExerciseSessionUpdate` payload: every field optional,
`none` meaning the field is absent from the update. -/
structure UpdatePayload where
  completed_at : Option ℕ
  total_moves : Option ℕ
  correct_moves : Option ℕ
  incorrect_moves : Option ℕ
  time_elapsed_ms : Option ℕ
  max_sequence_reached : Option ℕ
  final_score : Option ℚ
  score_breakdown : Option Breakdown
deriving Repr, DecidableEq

/-- Telemetry merge of `update_session`: each `is not None` field of the
payload overwrites the stored one. -/
def apply_update (s : MemoryExerciseSession) (d : UpdatePayload) : MemoryExerciseSession :=
  { s with
    total_moves := d.total_moves.getD s.total_moves
    correct_moves := d.correct_moves.getD s.correct_moves
    incorrect_moves := d.incorrect_moves.getD s.incorrect_moves
    time_elapsed_ms := d.time_elapsed_ms.getD s.time_elapsed_ms
    max_sequence_reached :=
      match d.max_sequence_reached with
      | some m => some m
      | none => s.max_sequence_reached }

/-- Completion marking inside `update_session`: sets `is_completed=True` and
stores the payload timestamp. -/
def complete_mark (s : MemoryExerciseSession) (t : ℕ) : MemoryExerciseSession :=
  { s with is_completed := true, completed_at := some t }

/-- Assignment `session.final_score = session.calculate_score()`. -/
def with_final_score (s : MemoryExerciseSession) (v : ℚ) : MemoryExerciseSession :=
  { s with final_score := some v }

/-- Assignment `session.score_breakdown = session.generate_score_breakdown()`. -/
def with_breakdown (s : MemoryExerciseSession) (bd : Breakdown) : MemoryExerciseSession :=
  { s with score_breakdown := some bd }

/-- `MemoryExerciseService.update_session` on a found session row: applies the
present payload fields, and when the payload carries a `completed_at`
(a datetime is always truthy) marks completion, recomputes the score on the
just-updated record, stores it, and generates the breakdown on the record
that already holds the new `final_score`. A raised `TypeError` aborts the
update. The payload fields `final_score` and `score_breakdown` are never
read. -/
def update_session (s : MemoryExerciseSession) (d : UpdatePayload) :
    Except Unit MemoryExerciseSession :=
  match d.completed_at with
  | none => Except.ok (apply_update s d)
  | some t =>
    match calculate_score (complete_mark (apply_update s d) t) with
    | Except.error e => Except.error e
    | Except.ok v =>
      match generate_score_breakdown
          (with_final_score (complete_mark (apply_update s d) t) v) with
      | Except.error e => Except.error e
      | Except.ok bd =>
        Except.ok (with_breakdown
          (with_final_score (complete_mark (apply_update s d) t) v) bd)

/-- Python truthiness of an optional int filter argument: `None` and `0` are
falsy, so `if exercise_id:` skips the filter for both. -/
def truthyInt : Option ℤ → Bool
  | none => false
  | some n => n != 0

/-- Python truthiness of an optional string filter argument: `None` and the
empty string are falsy. -/
def truthyStr : Option String → Bool
  | none => false
  | some t => t != ""

/-- Row predicate of the leaderboard query: completed, non-null score, and
each truthy filter applied. -/
def leaderboard_pred (exercise_id : Option ℤ) (exercise_type : Option String)
    (difficulty : Option String) (s : MemoryExerciseSession) : Bool :=
  s.is_completed && s.final_score.isSome
    && (!truthyInt exercise_id || s.exercise_id == exercise_id)
    && (!truthyStr exercise_type || (some s.exercise_type == exercise_type))
    && (!truthyStr difficulty || (some s.difficulty == difficulty))

/-- Sort key of `order_by(desc(final_score))`; scores are non-null on every
row the query keeps. -/
def scoreKey (s : MemoryExerciseSession) : ℚ := s.final_score.getD 0

/-- Descending-score ordering used to model the SQL sort. -/
def scoreGE (a b : MemoryExerciseSession) : Prop := scoreKey b ≤ scoreKey a

instance : DecidableRel scoreGE :=
  fun a b => inferInstanceAs (Decidable (scoreKey b ≤ scoreKey a))

instance : IsTotal MemoryExerciseSession scoreGE :=
  ⟨fun a b => le_total (scoreKey b) (scoreKey a)⟩

instance : IsTrans MemoryExerciseSession scoreGE :=
  ⟨fun _ _ _ h1 h2 => le_trans h2 h1⟩

/-- Leaderboard entry schema `MemoryExerciseLeaderboard`. -/
structure LeaderboardEntry where
  rank : ℕ
  user_id : ℤ
  final_score : ℚ
  accuracy : ℚ
  time_elapsed_ms : ℕ
  difficulty : String
  completed_at : Option ℕ
  is_current_user : Bool
deriving Repr, DecidableEq

/-- Entry built from one session row; accuracy is recomputed, the rank is the
1-based list position, and `is_current_user` is left for the caller. -/
def to_leaderboard_entry (rank : ℕ) (s : MemoryExerciseSession) : LeaderboardEntry where
  rank := rank
  user_id := s.user_id
  final_score := s.final_score.getD 0
  accuracy := get_accuracy s
  time_elapsed_ms := s.time_elapsed_ms
  difficulty := s.difficulty
  completed_at := s.completed_at
  is_current_user := false

/-- Enumeration of the ordered rows, `rank=idx+1`. -/
def rankEntries : ℕ → List MemoryExerciseSession → List LeaderboardEntry
  | _, [] => []
  | idx, s :: rest => to_leaderboard_entry (idx + 1) s :: rankEntries (idx + 1) rest

/-- Ordered, truncated row list of the leaderboard query. -/
def leaderboard_rows (db : List MemoryExerciseSession) (exercise_id : Option ℤ)
    (exercise_type : Option String) (difficulty : Option String) (limit : ℕ) :
    List MemoryExerciseSession :=
  (List.insertionSort scoreGE
    (db.filter (leaderboard_pred exercise_id exercise_type difficulty))).take limit

/-- `MemoryExerciseService.get_leaderboard` over a database modelled as a list
of rows. -/
def get_leaderboard (db : List MemoryExerciseSession) (exercise_id : Option ℤ)
    (exercise_type : Option String) (difficulty : Option String) (limit : ℕ) :
    List LeaderboardEntry :=
  rankEntries 0 (leaderboard_rows db exercise_id exercise_type difficulty limit)

/-- Stats schema `MemoryExerciseStats`. -/
structure MemoryExerciseStats where
  exercise_type : String
  total_attempts : ℕ
  completed_attempts : ℕ
  best_score : Option ℚ
  best_accuracy : Option ℚ
  fastest_time_ms : Option ℕ
  longest_sequence : Option ℕ
  avg_score : Option ℚ
  avg_accuracy : Option ℚ
  avg_time_ms : Option ℚ
  improvement_rate : Option ℚ
  recent_scores : List ℚ
  recent_accuracies : List ℚ
deriving Repr, DecidableEq

/-- Maximum of a list, `None` on the empty list, mirroring
`max(list, default=None)`. -/
def listMax {α : Type} [LinearOrder α] : List α → Option α
  | [] => none
  | a :: l =>
    match listMax l with
    | none => some a
    | some b => some (max a b)

/-- Minimum of a list, `None` on the empty list, mirroring
`min(list, default=None)`. -/
def listMin {α : Type} [LinearOrder α] : List α → Option α
  | [] => none
  | a :: l =>
    match listMin l with
    | none => some a
    | some b => some (min a b)

/-- Truthy final score of a row: `[s.final_score for ... if s.final_score]`
keeps neither `None` nor `0.0`. -/
def truthyScore (s : MemoryExerciseSession) : Option ℚ :=
  match s.final_score with
  | none => none
  | some v => if v = 0 then none else some v

/-- Truthy sequence depth: `if s.max_sequence_reached` keeps neither `None`
nor `0`. -/
def truthySeq (s : MemoryExerciseSession) : Option ℕ :=
  match s.max_sequence_reached with
  | none => none
  | some m => if m = 0 then none else some m

/-- Sessions of one user and exercise type, the per-type stats query. -/
def userTypeSessions (db : List MemoryExerciseSession) (user_id : ℤ) (ty : String) :
    List MemoryExerciseSession :=
  db.filter (fun s => s.user_id == user_id && s.exercise_type == ty)

/-- Completed subset of `userTypeSessions`. -/
def completedOf (db : List MemoryExerciseSession) (user_id : ℤ) (ty : String) :
    List MemoryExerciseSession :=
  (userTypeSessions db user_id ty).filter (fun s => s.is_completed)

/-- Ordering by creation time descending, used for the recent-session window. -/
def createdGE (a b : MemoryExerciseSession) : Prop := b.created_at ≤ a.created_at

instance : DecidableRel createdGE :=
  fun a b => inferInstanceAs (Decidable (b.created_at ≤ a.created_at))

/-- Recent-session window of `get_user_stats`:
`sorted(completed_sessions, key=created_at, reverse=True)[:10]`. -/
def recentSessions (db : List MemoryExerciseSession) (user_id : ℤ) (ty : String) :
    List MemoryExerciseSession :=
  (List.insertionSort createdGE (completedOf db user_id ty)).take 10

/-- Stats record built by `get_user_stats` for a type the user has sessions
of; `completed_sessions` of the source is `completedOf db user_id ty`. -/
def statsRecord (db : List MemoryExerciseSession) (user_id : ℤ) (ty : String) :
    MemoryExerciseStats where
  exercise_type := ty
  total_attempts := (userTypeSessions db user_id ty).length
  completed_attempts := (completedOf db user_id ty).length
  best_score := listMax ((completedOf db user_id ty).filterMap truthyScore)
  best_accuracy := listMax ((completedOf db user_id ty).map get_accuracy)
  fastest_time_ms := listMin ((completedOf db user_id ty).filterMap
    (fun s => if 0 < s.time_elapsed_ms then some s.time_elapsed_ms else none))
  longest_sequence := listMax ((completedOf db user_id ty).filterMap truthySeq)
  avg_score := if (completedOf db user_id ty).isEmpty then none
    else some (((completedOf db user_id ty).filterMap truthyScore).sum /
      ((completedOf db user_id ty).length : ℚ))
  avg_accuracy := if (completedOf db user_id ty).isEmpty then none
    else some (((completedOf db user_id ty).map get_accuracy).sum /
      ((completedOf db user_id ty).length : ℚ))
  avg_time_ms := if (completedOf db user_id ty).isEmpty then none
    else some (((completedOf db user_id ty).map (fun s => (s.time_elapsed_ms : ℚ))).sum /
      ((completedOf db user_id ty).length : ℚ))
  improvement_rate := none
  recent_scores := (recentSessions db user_id ty).filterMap truthyScore
  recent_accuracies := (recentSessions db user_id ty).map get_accuracy

/-- Per-type stats of `get_user_stats`, `None` when the user has no session
of the type (the `continue` branch). -/
def statsFor (db : List MemoryExerciseSession) (user_id : ℤ) (ty : String) :
    Option MemoryExerciseStats :=
  if (userTypeSessions db user_id ty).isEmpty then none
  else some (statsRecord db user_id ty)

/-- Exercise type enumeration iterated by `get_user_stats`. -/
def exerciseTypes : List String :=
  ["memory_cards", "pattern_recall", "sequence_memory", "image_pairs"]

/-- `MemoryExerciseService.get_user_stats`: one stats record per exercise type
the user has sessions of. -/
def get_user_stats (db : List MemoryExerciseSession) (user_id : ℤ) :
    List MemoryExerciseStats :=
  exerciseTypes.filterMap (statsFor db user_id)

theorem listMax_eq_none_iff {α : Type} [LinearOrder α] (l : List α) :
    listMax l = none ↔ l = [] := by
  cases l with
  | nil => simp [listMax]
  | cons a l => cases h : listMax l <;> simp [listMax, h]

theorem listMax_mem {α : Type} [LinearOrder α] :
    ∀ {l : List α} {b : α}, listMax l = some b → b ∈ l := by
  intro l
  induction l with
  | nil => intro b h; simp [listMax] at h
  | cons a l ih =>
    intro b h
    rw [listMax] at h
    cases hm : listMax l with
    | none =>
      rw [hm] at h
      cases h
      exact List.mem_cons_self _ _
    | some c =>
      rw [hm] at h
      cases h
      rcases max_choice a c with hc | hc <;> rw [hc]
      · exact List.mem_cons_self _ _
      · exact List.mem_cons_of_mem _ (ih hm)

theorem le_listMax {α : Type} [LinearOrder α] :
    ∀ {l : List α} {a : α}, a ∈ l → ∃ b, listMax l = some b ∧ a ≤ b := by
  intro l
  induction l with
  | nil => intro a h; cases h
  | cons hd tl ih =>
    intro a h
    rcases List.mem_cons.mp h with rfl | htl
    · cases hm : listMax tl with
      | none => exact ⟨a, by rw [listMax, hm], le_refl a⟩
      | some c => exact ⟨max a c, by rw [listMax, hm], le_max_left a c⟩
    · rcases ih htl with ⟨b, hb, hab⟩
      exact ⟨max hd b, by rw [listMax, hb], le_trans hab (le_max_right hd b)⟩

theorem listMin_eq_none_iff {α : Type} [LinearOrder α] (l : List α) :
    listMin l = none ↔ l = [] := by
  cases l with
  | nil => simp [listMin]
  | cons a l => cases h : listMin l <;> simp [listMin, h]

theorem rankEntries_length (i : ℕ) (l : List MemoryExerciseSession) :
    (rankEntries i l).length = l.length := by
  induction l generalizing i with
  | nil => rfl
  | cons s rest ih => simp [rankEntries, ih]

theorem rankEntries_getElem? (l : List MemoryExerciseSession) (i j : ℕ) :
    (rankEntries i l)[j]? = l[j]?.map (fun s => to_leaderboard_entry (i + j + 1) s) := by
  induction l generalizing i j with
  | nil => simp [rankEntries]
  | cons s rest ih =>
    cases j with
    | zero => simp [rankEntries]
    | succ j =>
      have harith : i + 1 + j + 1 = i + (j + 1) + 1 := by omega
      simp only [rankEntries, List.getElem?_cons_succ, ih (i + 1) j, harith]

theorem rankEntries_mem {e : LeaderboardEntry} :
    ∀ (i : ℕ) {l : List MemoryExerciseSession}, e ∈ rankEntries i l →
    ∃ s, s ∈ l ∧ e = to_leaderboard_entry e.rank s := by
  intro i l
  induction l generalizing i with
  | nil => intro h; cases h
  | cons s rest ih =>
    intro h
    rcases List.mem_cons.mp h with rfl | htl
    · exact ⟨s, List.mem_cons_self _ _, rfl⟩
    · rcases ih _ htl with ⟨s0, hs0, he⟩
      exact ⟨s0, List.mem_cons_of_mem _ hs0, he⟩

theorem leaderboard_rows_sorted (db : List MemoryExerciseSession) (exercise_id : Option ℤ)
    (exercise_type : Option String) (difficulty : Option String) (limit : ℕ) :
    List.Pairwise scoreGE (leaderboard_rows db exercise_id exercise_type difficulty limit) :=
  List.Pairwise.sublist (List.take_sublist _ _)
    (List.sorted_insertionSort scoreGE _)

theorem leaderboard_rows_mem {db : List MemoryExerciseSession} {exercise_id : Option ℤ}
    {exercise_type difficulty : Option String} {limit : ℕ} {s : MemoryExerciseSession}
    (h : s ∈ leaderboard_rows db exercise_id exercise_type difficulty limit) :
    s ∈ db ∧ leaderboard_pred exercise_id exercise_type difficulty s = true := by
  have h1 : s ∈ List.insertionSort scoreGE
      (db.filter (leaderboard_pred exercise_id exercise_type difficulty)) :=
    (List.take_sublist _ _).subset h
  have h2 := (List.perm_insertionSort scoreGE _).subset h1
  exact List.mem_filter.mp h2

theorem get_accuracy_nonneg (s : MemoryExerciseSession) : 0 ≤ get_accuracy s := by
  unfold get_accuracy
  split
  · exact le_refl 0
  · positivity

theorem calcTimeScore_nonneg {s : MemoryExerciseSession} {ts : ℚ}
    (h : calcTimeScore s = Except.ok ts) : 0 ≤ ts := by
  unfold calcTimeScore at h
  split at h
  · cases hgl : get_time_limit s.config with
    | none => simp only [hgl] at h; cases h
    | some L =>
      simp only [hgl] at h
      by_cases hL : 0 < L
      · rw [if_pos hL] at h
        have hv := Except.ok.inj h
        have hm : min 1 ((s.time_elapsed_ms : ℚ) / (L : ℚ)) ≤ 1 := min_le_left _ _
        nlinarith
      · rw [if_neg hL] at h
        have hv := Except.ok.inj h
        rw [← hv]
  · have hv := Except.ok.inj h
    rw [← hv]

theorem sequence_bonus_nonneg (s : MemoryExerciseSession) : 0 ≤ sequence_bonus s := by
  cases hm : s.max_sequence_reached with
  | none => simp [sequence_bonus, hm]
  | some m =>
    simp only [sequence_bonus, hm]
    split
    · exact le_min (by norm_num) (by positivity)
    · exact le_refl (0 : ℚ)

theorem difficulty_multiplier_pos (d : String) : 0 < difficulty_multiplier d := by
  unfold difficulty_multiplier
  split_ifs <;> norm_num

/-- Case analysis of `calculate_score` on a normal return: either the
early-return guard fired and the score is 0, or the score is the capped
weighted combination. -/
theorem calculate_score_ok {s : MemoryExerciseSession} {v : ℚ}
    (h : calculate_score s = Except.ok v) :
    ((s.is_completed = false ∨ s.total_moves = 0) ∧ v = 0) ∨
    (∃ ts, s.is_completed = true ∧ s.total_moves ≠ 0 ∧ calcTimeScore s = Except.ok ts ∧
      v = min 100 ((get_accuracy s * s.config.accuracy_weight.getD (1/2) +
        ts * s.config.time_weight.getD (1/2) + sequence_bonus s) *
        difficulty_multiplier s.difficulty)) := by
  unfold calculate_score at h
  split at h
  · rename_i hguard
    exact Or.inl ⟨hguard, (Except.ok.inj h).symm⟩
  · rename_i hguard
    push_neg at hguard
    cases hts : calcTimeScore s with
    | error e => rw [hts] at h; cases h
    | ok ts =>
      rw [hts] at h
      refine Or.inr ⟨ts, ?_, hguard.2, rfl, (Except.ok.inj h).symm⟩
      cases hb : s.is_completed with
      | false => exact absurd hb hguard.1
      | true => rfl

/-- Characterization of a returned per-type stats record. -/
theorem statsFor_spec {db : List MemoryExerciseSession} {user_id : ℤ} {ty : String}
    {st : MemoryExerciseStats} (h : statsFor db user_id ty = some st) :
    userTypeSessions db user_id ty ≠ [] ∧ st = statsRecord db user_id ty := by
  unfold statsFor at h
  split at h
  · cases h
  · rename_i hne
    refine ⟨fun hnil => hne (List.isEmpty_iff.mpr hnil), (Option.some.inj h).symm⟩

/-- Concrete counterexample session for C1: accuracy weight -1.0. -/
def c1s : MemoryExerciseSession where
  user_id := 1
  exercise_id := none
  exercise_type := "memory_cards"
  difficulty := "easy"
  config := ⟨some 0, some (-1), none⟩
  is_completed := true
  completed_at := some 1
  total_moves := 1
  correct_moves := 1
  incorrect_moves := 0
  time_elapsed_ms := 0
  max_sequence_reached := none
  final_score := none
  score_breakdown := none
  created_at := 0

/-- C1 (amended): for non-negative integer telemetry every normally returned
score is at most 100, and when both configured weights are non-negative it
is also non-negative, hence in [0, 100]. For arbitrary float weights only
the upper cap holds. -/
theorem C1_score_bounds (s : MemoryExerciseSession) (v : ℚ)
    (h : calculate_score s = Except.ok v) :
    v ≤ 100 ∧ (0 ≤ s.config.time_weight.getD (1/2) →
      0 ≤ s.config.accuracy_weight.getD (1/2) → 0 ≤ v) := by
  rcases calculate_score_ok h with ⟨_, rfl⟩ | ⟨ts, _, _, hts, rfl⟩
  · exact ⟨by norm_num, fun _ _ => le_refl 0⟩
  · constructor
    · exact min_le_left _ _
    · intro htw haw
      refine le_min (by norm_num) ?_
      have h1 := get_accuracy_nonneg s
      have h2 := calcTimeScore_nonneg hts
      have h3 := sequence_bonus_nonneg s
      have h4 := (difficulty_multiplier_pos s.difficulty).le
      have hb : 0 ≤ get_accuracy s * s.config.accuracy_weight.getD (1/2) +
          ts * s.config.time_weight.getD (1/2) + sequence_bonus s :=
        add_nonneg (add_nonneg (mul_nonneg h1 haw) (mul_nonneg h2 htw)) h3
      exact mul_nonneg hb h4

/-- Witness for C1_score_bounds at a concrete completed session scoring 40. -/
theorem C1_score_bounds_witness :
    (40 : ℚ) ≤ 100 ∧ (0 ≤ sanitySession.config.time_weight.getD (1/2) →
      0 ≤ sanitySession.config.accuracy_weight.getD (1/2) → 0 ≤ (40 : ℚ)) :=
  C1_score_bounds sanitySession 40 (by
    norm_num [calculate_score, calcTimeScore, get_time_limit, get_accuracy, sequence_bonus,
      difficulty_multiplier, sanitySession])

/-- Counterexample to C1 as stated: non-negative telemetry with the float
weights 0.0 and -1.0 produces the score -100, outside [0, 100]. -/
theorem C1_negative_weight_counterexample :
    calculate_score c1s = Except.ok (-100) ∧ ((-100 : ℚ) < 0) := by
  constructor
  · norm_num [calculate_score, calcTimeScore, get_time_limit, get_accuracy, sequence_bonus,
      difficulty_multiplier, c1s]
  · norm_num

/-- Stated from the wording of claim C2: the time limit with the default
60000 applied when the key is absent or its stored value is non-positive. -/
def spec_time_limit (c : ConfigBlob) : ℤ :=
  match c.time_limit_ms with
  | none => 60000
  | some none => 60000
  | some (some v) => if v ≤ 0 then 60000 else v

/-- Stated from the wording of claim C2: time score computed against the
defaulted limit whenever any time has elapsed. -/
def spec_time_score (s : MemoryExerciseSession) : ℚ :=
  if 0 < s.time_elapsed_ms then
    (1 - min 1 ((s.time_elapsed_ms : ℚ) / (spec_time_limit s.config : ℚ))) * 100
  else 0

/-- Concrete counterexample session for C2: stored time limit 0 with elapsed
time 30000. -/
def c2s : MemoryExerciseSession where
  user_id := 1
  exercise_id := none
  exercise_type := "memory_cards"
  difficulty := "easy"
  config := ⟨some 1, some 0, some (some 0)⟩
  is_completed := true
  completed_at := some 1
  total_moves := 1
  correct_moves := 1
  incorrect_moves := 0
  time_elapsed_ms := 30000
  max_sequence_reached := none
  final_score := none
  score_breakdown := none
  created_at := 0

/-- Concrete witness session for C2: absent time limit with elapsed time
30000. -/
def c2w : MemoryExerciseSession where
  user_id := 1
  exercise_id := none
  exercise_type := "memory_cards"
  difficulty := "easy"
  config := ⟨none, none, none⟩
  is_completed := true
  completed_at := some 1
  total_moves := 1
  correct_moves := 1
  incorrect_moves := 0
  time_elapsed_ms := 30000
  max_sequence_reached := none
  final_score := none
  score_breakdown := none
  created_at := 0

/-- C2 (amended): the default 60000 applies only when the key is absent;
with a positive limit and positive elapsed time the code computes
(1 - min(1, elapsed/limit)) * 100; the time score is 0.0 when no time has
elapsed and also when a present stored limit is non-positive (instead of
being computed from a defaulted limit as the claim states). -/
theorem C2_time_score (s : MemoryExerciseSession) :
    (s.config.time_limit_ms = none → get_time_limit s.config = some 60000) ∧
    (∀ L : ℤ, get_time_limit s.config = some L → 0 < L → 0 < s.time_elapsed_ms →
      calcTimeScore s = Except.ok ((1 - min 1 ((s.time_elapsed_ms : ℚ) / (L : ℚ))) * 100)) ∧
    (s.time_elapsed_ms = 0 → calcTimeScore s = Except.ok 0) ∧
    (∀ L : ℤ, get_time_limit s.config = some L → L ≤ 0 → calcTimeScore s = Except.ok 0) := by
  refine ⟨?_, ?_, ?_, ?_⟩
  · intro h; simp [get_time_limit, h]
  · intro L hL hpos ht
    unfold calcTimeScore
    rw [if_pos ht]
    simp only [hL]
    rw [if_pos hpos]
  · intro h
    unfold calcTimeScore
    rw [if_neg (by rw [h]; exact lt_irrefl 0)]
  · intro L hL hnonpos
    unfold calcTimeScore
    split
    · simp only [hL]
      rw [if_neg (not_lt.mpr hnonpos)]
    · rfl

/-- Witness for C2_time_score: absent limit key, elapsed time 30000. -/
theorem C2_time_score_witness :
    calcTimeScore c2w =
      Except.ok ((1 - min 1 ((c2w.time_elapsed_ms : ℚ) / ((60000 : ℤ) : ℚ))) * 100) :=
  (C2_time_score c2w).2.1 60000 rfl (by norm_num) (by norm_num [c2w])

/-- Counterexample to C2 as stated: with a present non-positive limit the
code yields time score 0.0 while the claimed defaulted formula yields 50;
the observable final score is 0 rather than 50. -/
theorem C2_zero_limit_counterexample :
    calcTimeScore c2s = Except.ok 0 ∧ spec_time_score c2s = 50 ∧
    calculate_score c2s = Except.ok 0 ∧ (0 : ℚ) ≠ 50 := by
  refine ⟨?_, ?_, ?_, by norm_num⟩
  · norm_num [calcTimeScore, get_time_limit, c2s]
  · norm_num [spec_time_score, spec_time_limit, c2s]
  · norm_num [calculate_score, calcTimeScore, get_time_limit, get_accuracy, sequence_bonus,
      difficulty_multiplier, c2s]

/-- Sequence-memory preset of the route layer: no time limit, weights
0.2/0.8. -/
def sequencePreset : MemoryExerciseConfig where
  exercise_type := "sequence_memory"
  difficulty := "easy"
  time_limit_ms := none
  time_weight := 1/5
  accuracy_weight := 4/5

/-- Completion payload driving the C3 failing input. -/
def c3payload : UpdatePayload where
  completed_at := some 1
  total_moves := some 4
  correct_moves := some 3
  incorrect_moves := some 1
  time_elapsed_ms := some 5000
  max_sequence_reached := some 6
  final_score := none
  score_breakdown := none

/-- C3 evaluated at the failing input: a session created from the
sequence-memory preset stores `time_limit_ms` as JSON null, and completing
it raises a `TypeError` (`None > 0`) in `calculate_score` (elapsed time is
positive) and unconditionally in `generate_score_breakdown`, so the whole
update aborts instead of never raising as the claim states. -/
theorem C3_typeerror_eval :
    update_session (create_session 1 none sequencePreset) c3payload = Except.error () ∧
    calculate_score
      (complete_mark (apply_update (create_session 1 none sequencePreset) c3payload) 1) =
      Except.error () ∧
    generate_score_breakdown
      (complete_mark (apply_update (create_session 1 none sequencePreset) c3payload) 1) =
      Except.error () :=
  ⟨rfl, rfl, rfl⟩

/-- Concrete witness session for C4: expert sequence-memory run with full
accuracy, depth 15, and default weights, scoring exactly 100. -/
def c4s : MemoryExerciseSession where
  user_id := 1
  exercise_id := none
  exercise_type := "sequence_memory"
  difficulty := "expert"
  config := ⟨none, none, none⟩
  is_completed := true
  completed_at := some 1
  total_moves := 10
  correct_moves := 10
  incorrect_moves := 0
  time_elapsed_ms := 0
  max_sequence_reached := some 15
  final_score := none
  score_breakdown := none
  created_at := 0

/-- C4: on a completed session with positive total moves, a normally
returned score equals min(100, (base + bonus) * multiplier); the bonus is
zero unless the exercise type is sequence_memory with positive recorded
depth m, in which case it is min(20, 2 m); and the expert sequence-memory
scenario of the spec reaches exactly 100 after the single post-multiplier
cap. -/
theorem C4_final_score_formula (s : MemoryExerciseSession) (v : ℚ)
    (hc : s.is_completed = true) (hm : s.total_moves ≠ 0)
    (h : calculate_score s = Except.ok v) :
    (∃ ts, calcTimeScore s = Except.ok ts ∧
      v = min 100 ((get_accuracy s * s.config.accuracy_weight.getD (1/2) +
        ts * s.config.time_weight.getD (1/2) + sequence_bonus s) *
        difficulty_multiplier s.difficulty)) ∧
    (s.exercise_type ≠ "sequence_memory" ∨ s.max_sequence_reached = none ∨
      s.max_sequence_reached = some 0 → sequence_bonus s = 0) ∧
    (∀ m : ℕ, s.exercise_type = "sequence_memory" → s.max_sequence_reached = some m →
      0 < m → sequence_bonus s = min 20 (2 * (m : ℚ))) ∧
    min 100 ((100 * (1/2 : ℚ) + 100 * (1/2 : ℚ) + min 20 (2 * (15 : ℚ))) *
      difficulty_multiplier "expert") = 100 := by
  refine ⟨?_, ?_, ?_, by
    simp only [difficulty_multiplier, String.reduceEq, reduceIte]
    norm_num [min_def]⟩
  · rcases calculate_score_ok h with ⟨hg, _⟩ | ⟨ts, _, _, hts, rfl⟩
    · rcases hg with hg | hg
      · rw [hc] at hg; cases hg
      · exact absurd hg hm
    · exact ⟨ts, hts, rfl⟩
  · intro hcase
    cases hmsr : s.max_sequence_reached with
    | none => simp [sequence_bonus, hmsr]
    | some m =>
      rcases hcase with hne | hnone | hzero
      · simp [sequence_bonus, hmsr, hne]
      · rw [hmsr] at hnone; cases hnone
      · rw [hmsr] at hzero
        have hm0 := Option.some.inj hzero
        simp [sequence_bonus, hmsr, hm0]
  · intro m hty hmsr hpos
    simp only [sequence_bonus, hmsr]
    rw [if_pos ⟨hty, Nat.pos_iff_ne_zero.mp hpos⟩, mul_comm ((m : ℚ)) 2]

/-- Witness for C4_final_score_formula at the expert sequence-memory
session c4s, whose computed score is exactly 100. -/
theorem C4_final_score_formula_witness :
    (∃ ts, calcTimeScore c4s = Except.ok ts ∧
      (100 : ℚ) = min 100 ((get_accuracy c4s * c4s.config.accuracy_weight.getD (1/2) +
        ts * c4s.config.time_weight.getD (1/2) + sequence_bonus c4s) *
        difficulty_multiplier c4s.difficulty)) ∧
    (c4s.exercise_type ≠ "sequence_memory" ∨ c4s.max_sequence_reached = none ∨
      c4s.max_sequence_reached = some 0 → sequence_bonus c4s = 0) ∧
    (∀ m : ℕ, c4s.exercise_type = "sequence_memory" → c4s.max_sequence_reached = some m →
      0 < m → sequence_bonus c4s = min 20 (2 * (m : ℚ))) ∧
    min 100 ((100 * (1/2 : ℚ) + 100 * (1/2 : ℚ) + min 20 (2 * (15 : ℚ))) *
      difficulty_multiplier "expert") = 100 :=
  C4_final_score_formula c4s 100 rfl (by decide) (by
    simp only [calculate_score, calcTimeScore, get_time_limit, get_accuracy, sequence_bonus,
      difficulty_multiplier, c4s, String.reduceEq, reduceIte]
    norm_num [min_def])

/-- Concrete already-completed session for C5 and C10. -/
def c5s : MemoryExerciseSession where
  user_id := 1
  exercise_id := none
  exercise_type := "memory_cards"
  difficulty := "easy"
  config := ⟨none, none, none⟩
  is_completed := true
  completed_at := some 100
  total_moves := 10
  correct_moves := 10
  incorrect_moves := 0
  time_elapsed_ms := 0
  max_sequence_reached := none
  final_score := some 50
  score_breakdown := none
  created_at := 0

/-- Re-completing payload for the C5 counterexample. -/
def c5payload : UpdatePayload where
  completed_at := some 200
  total_moves := none
  correct_moves := some 0
  incorrect_moves := none
  time_elapsed_ms := none
  max_sequence_reached := none
  final_score := none
  score_breakdown := none

/-- Non-completing payload for the C5 witness. -/
def c5wpayload : UpdatePayload where
  completed_at := none
  total_moves := some 11
  correct_moves := none
  incorrect_moves := none
  time_elapsed_ms := none
  max_sequence_reached := none
  final_score := none
  score_breakdown := none

/-- C5 (amended): is_completed never reverts, and an update carrying no
completed_at leaves completed_at, is_completed, final_score and
score_breakdown unchanged; a second update carrying completed_at is however
accepted and overwrites completed_at, final_score and score_breakdown. -/
theorem C5_completion_frame (s : MemoryExerciseSession) (d : UpdatePayload)
    (r : MemoryExerciseSession) (h : update_session s d = Except.ok r) :
    (s.is_completed = true → r.is_completed = true) ∧
    (d.completed_at = none → r.is_completed = s.is_completed ∧
      r.completed_at = s.completed_at ∧ r.final_score = s.final_score ∧
      r.score_breakdown = s.score_breakdown) := by
  unfold update_session at h
  cases hd : d.completed_at with
  | none =>
    simp only [hd] at h
    have hr := Except.ok.inj h
    subst hr
    exact ⟨fun hic => hic, fun _ => ⟨rfl, rfl, rfl, rfl⟩⟩
  | some t =>
    simp only [hd] at h
    cases hv : calculate_score (complete_mark (apply_update s d) t) with
    | error e => simp only [hv, reduceCtorEq] at h
    | ok v =>
      simp only [hv] at h
      cases hbd : generate_score_breakdown
          (with_final_score (complete_mark (apply_update s d) t) v) with
      | error e => simp only [hbd, reduceCtorEq] at h
      | ok bd =>
        simp only [hbd, Except.ok.injEq] at h
        subst h
        exact ⟨fun _ => rfl, fun hnone => by cases hnone⟩

/-- Witness for C5_completion_frame: a telemetry-only update leaves the four
completion fields of the completed session c5s unchanged. -/
theorem C5_completion_frame_witness :
    (apply_update c5s c5wpayload).is_completed = c5s.is_completed ∧
    (apply_update c5s c5wpayload).completed_at = c5s.completed_at ∧
    (apply_update c5s c5wpayload).final_score = c5s.final_score ∧
    (apply_update c5s c5wpayload).score_breakdown = c5s.score_breakdown :=
  (C5_completion_frame c5s c5wpayload (apply_update c5s c5wpayload) rfl).2 rfl

/-- Counterexample to C5 as stated: a second completion update on the
already-completed session c5s changes completed_at from 100 to 200 and
overwrites final_score from 50 to the recomputed 0. -/
theorem C5_recompletion_counterexample :
    c5s.is_completed = true ∧ c5s.completed_at = some 100 ∧ c5s.final_score = some 50 ∧
    (update_session c5s c5payload).map (fun r => r.completed_at) = Except.ok (some 200) ∧
    (update_session c5s c5payload).map (fun r => r.final_score) = Except.ok (some 0) := by
  refine ⟨rfl, rfl, rfl, ?_, ?_⟩ <;>
    norm_num [update_session, apply_update, complete_mark, with_final_score, with_breakdown,
      calculate_score, calcTimeScore, get_time_limit, get_accuracy, sequence_bonus,
      difficulty_multiplier, generate_score_breakdown, Except.map, c5s, c5payload]

/-- Payload for the C10 witness: carries a forged final_score and no
completion. -/
def c10payload : UpdatePayload where
  completed_at := none
  total_moves := some 3
  correct_moves := none
  incorrect_moves := none
  time_elapsed_ms := none
  max_sequence_reached := none
  final_score := some 99
  score_breakdown := none

/-- C10: the payload fields final_score and score_breakdown never influence
update_session; without completed_at the stored score fields are unchanged,
and with completed_at they are exactly the engine outputs computed on the
just-updated record. -/
theorem C10_score_not_writable (s : MemoryExerciseSession) (d : UpdatePayload)
    (x : Option ℚ) (y : Option Breakdown) :
    update_session s { d with final_score := x, score_breakdown := y } = update_session s d ∧
    (d.completed_at = none → update_session s d = Except.ok (apply_update s d) ∧
      (apply_update s d).final_score = s.final_score ∧
      (apply_update s d).score_breakdown = s.score_breakdown) ∧
    (∀ t r, d.completed_at = some t → update_session s d = Except.ok r →
      ∃ v, calculate_score (complete_mark (apply_update s d) t) = Except.ok v ∧
        r.final_score = some v ∧
        ∃ bd, generate_score_breakdown
            (with_final_score (complete_mark (apply_update s d) t) v) =
            Except.ok bd ∧
          r.score_breakdown = some bd) := by
  refine ⟨rfl, ?_, ?_⟩
  · intro hd
    refine ⟨?_, rfl, rfl⟩
    unfold update_session
    rw [hd]
  · intro t r hd h
    unfold update_session at h
    simp only [hd] at h
    cases hv : calculate_score (complete_mark (apply_update s d) t) with
    | error e => simp only [hv, reduceCtorEq] at h
    | ok v =>
      simp only [hv] at h
      cases hbd : generate_score_breakdown
          (with_final_score (complete_mark (apply_update s d) t) v) with
      | error e => simp only [hbd, reduceCtorEq] at h
      | ok bd =>
        simp only [hbd, Except.ok.injEq] at h
        subst h
        exact ⟨v, rfl, rfl, bd, hbd, rfl⟩

/-- Witness for C10_score_not_writable: the forged final_score 99 in the
payload leaves the stored score fields of c5s untouched. -/
theorem C10_score_not_writable_witness :
    update_session c5s c10payload = Except.ok (apply_update c5s c10payload) ∧
    (apply_update c5s c10payload).final_score = c5s.final_score ∧
    (apply_update c5s c10payload).score_breakdown = c5s.score_breakdown :=
  (C10_score_not_writable c5s c10payload none none).2.1 rfl

/-- C9: the difficulty multiplier mapping is exactly 1.0/1.2/1.5/2.0 on the
four known strings, any other difficulty string degrades gracefully to the
multiplier 1.0, and an absent weight key behaves exactly as the value 0.5. -/
theorem C9_multiplier_defaults :
    (difficulty_multiplier "easy" = 1 ∧ difficulty_multiplier "medium" = 1.2 ∧
      difficulty_multiplier "hard" = 1.5 ∧ difficulty_multiplier "expert" = 2) ∧
    (∀ d : String, d ≠ "easy" → d ≠ "medium" → d ≠ "hard" → d ≠ "expert" →
      difficulty_multiplier d = 1) ∧
    (∀ s : MemoryExerciseSession, s.config.time_weight = none →
      calculate_score s =
        calculate_score { s with config := { s.config with time_weight := some (1/2) } }) ∧
    (∀ s : MemoryExerciseSession, s.config.accuracy_weight = none →
      calculate_score s =
        calculate_score { s with config := { s.config with accuracy_weight := some (1/2) } }) := by
  refine ⟨⟨?_, ?_, ?_, ?_⟩, ?_, ?_, ?_⟩
  · simp only [difficulty_multiplier, String.reduceEq, reduceIte]; try norm_num
  · simp only [difficulty_multiplier, String.reduceEq, reduceIte]; try norm_num
  · simp only [difficulty_multiplier, String.reduceEq, reduceIte]; try norm_num
  · simp only [difficulty_multiplier, String.reduceEq, reduceIte]; try norm_num
  · intro d h1 h2 h3 h4
    unfold difficulty_multiplier
    rw [if_neg h1, if_neg h2, if_neg h3, if_neg h4]
    norm_num
  · intro s h
    rcases s with ⟨u, eid, ety, dif, cfg, ic, ca, tm, cm, im, te, msr, fs, sb, cr⟩
    rcases cfg with ⟨tw, aw, tl⟩
    obtain rfl : tw = none := h
    rfl
  · intro s h
    rcases s with ⟨u, eid, ety, dif, cfg, ic, ca, tm, cm, im, te, msr, fs, sb, cr⟩
    rcases cfg with ⟨tw, aw, tl⟩
    obtain rfl : aw = none := h
    rfl

/-- Witness for C9_multiplier_defaults: the absent time weight of
sanitySession can be replaced by an explicit 0.5 without changing the
score. -/
theorem C9_multiplier_defaults_witness :
    calculate_score sanitySession =
      calculate_score { sanitySession with
        config := { sanitySession.config with time_weight := some (1/2) } } :=
  C9_multiplier_defaults.2.2.1 sanitySession rfl

/-- Decomposition of the leaderboard row predicate. -/
theorem leaderboard_pred_spec {exercise_id : Option ℤ} {exercise_type difficulty : Option String}
    {s : MemoryExerciseSession}
    (h : leaderboard_pred exercise_id exercise_type difficulty s = true) :
    s.is_completed = true ∧ (∃ v, s.final_score = some v) ∧
    (truthyInt exercise_id = true → s.exercise_id = exercise_id) ∧
    (truthyStr exercise_type = true → some s.exercise_type = exercise_type) ∧
    (truthyStr difficulty = true → some s.difficulty = difficulty) := by
  unfold leaderboard_pred at h
  simp only [Bool.and_eq_true, Bool.or_eq_true, Bool.not_eq_true'] at h
  obtain ⟨⟨⟨⟨h1, h2⟩, h3⟩, h4⟩, h5⟩ := h
  refine ⟨h1, Option.isSome_iff_exists.mp h2, ?_, ?_, ?_⟩
  · intro ht
    rcases h3 with hf | hbeq
    · rw [ht] at hf; cases hf
    · exact beq_iff_eq.mp hbeq
  · intro ht
    rcases h4 with hf | hbeq
    · rw [ht] at hf; cases hf
    · exact beq_iff_eq.mp hbeq
  · intro ht
    rcases h5 with hf | hbeq
    · rw [ht] at hf; cases hf
    · exact beq_iff_eq.mp hbeq

/-- C6 (amended): the leaderboard has at most limit entries, rank equals the
1-based list position, scores are non-increasing along the list, and every
entry comes from a stored completed session with a non-null score matching
every provided truthy filter; a filter argument that is 0 or the empty
string is ignored by the code (Python truthiness), see the counterexample. -/
theorem C6_leaderboard (db : List MemoryExerciseSession) (exercise_id : Option ℤ)
    (exercise_type difficulty : Option String) (limit : ℕ) :
    (get_leaderboard db exercise_id exercise_type difficulty limit).length ≤ limit ∧
    (∀ j e, (get_leaderboard db exercise_id exercise_type difficulty limit)[j]? = some e →
      e.rank = j + 1) ∧
    (∀ (i j : ℕ) (ei ej : LeaderboardEntry), i ≤ j →
      (get_leaderboard db exercise_id exercise_type difficulty limit)[i]? = some ei →
      (get_leaderboard db exercise_id exercise_type difficulty limit)[j]? = some ej →
      ej.final_score ≤ ei.final_score) ∧
    (∀ e ∈ get_leaderboard db exercise_id exercise_type difficulty limit,
      ∃ s, s ∈ db ∧ s.is_completed = true ∧ s.final_score = some e.final_score ∧
        (truthyInt exercise_id = true → s.exercise_id = exercise_id) ∧
        (truthyStr exercise_type = true → some s.exercise_type = exercise_type) ∧
        (truthyStr difficulty = true → some s.difficulty = difficulty) ∧
        e = to_leaderboard_entry e.rank s) := by
  refine ⟨?_, ?_, ?_, ?_⟩
  · rw [get_leaderboard, rankEntries_length, leaderboard_rows, List.length_take]
    exact min_le_left _ _
  · intro j e h
    rw [get_leaderboard, rankEntries_getElem?] at h
    rcases Option.map_eq_some'.mp h with ⟨s, _, hes⟩
    rw [← hes]
    show 0 + j + 1 = j + 1
    omega
  · intro i j ei ej hij hi hj
    have hpw := leaderboard_rows_sorted db exercise_id exercise_type difficulty limit
    rw [get_leaderboard, rankEntries_getElem?] at hi hj
    rcases Option.map_eq_some'.mp hi with ⟨si, hsi, hei⟩
    rcases Option.map_eq_some'.mp hj with ⟨sj, hsj, hej⟩
    rcases eq_or_lt_of_le hij with rfl | hlt
    · rw [hsi] at hsj
      obtain rfl := Option.some.inj hsj
      rw [← hei, ← hej]
    · rcases List.getElem?_eq_some.mp hsi with ⟨hbi, hgi⟩
      rcases List.getElem?_eq_some.mp hsj with ⟨hbj, hgj⟩
      have hord := List.pairwise_iff_get.mp hpw ⟨i, hbi⟩ ⟨j, hbj⟩ hlt
      rw [List.get_eq_getElem, List.get_eq_getElem, hgi, hgj] at hord
      rw [← hei, ← hej]
      exact hord
  · intro e he
    rcases rankEntries_mem 0 he with ⟨s, hsL, hes⟩
    rcases leaderboard_rows_mem hsL with ⟨hdb, hpred⟩
    rcases leaderboard_pred_spec hpred with ⟨hic, ⟨v, hv⟩, hf1, hf2, hf3⟩
    refine ⟨s, hdb, hic, ?_, hf1, hf2, hf3, hes⟩
    have hfs : e.final_score = v := by
      rw [hes]
      show s.final_score.getD 0 = v
      rw [hv]
      rfl
    rw [hv, hfs]

/-- Concrete completed session with exercise_id 1 for the C6 theorems. -/
def c6s : MemoryExerciseSession where
  user_id := 7
  exercise_id := some 1
  exercise_type := "memory_cards"
  difficulty := "easy"
  config := ⟨none, none, none⟩
  is_completed := true
  completed_at := some 5
  total_moves := 4
  correct_moves := 2
  incorrect_moves := 2
  time_elapsed_ms := 1000
  max_sequence_reached := none
  final_score := some 50
  score_breakdown := none
  created_at := 0

/-- Witness for C6_leaderboard: the single entry of a one-session
leaderboard has rank 1. -/
theorem C6_leaderboard_witness :
    (to_leaderboard_entry 1 c6s).rank = 0 + 1 :=
  (C6_leaderboard [c6s] none none none 10).2.1 0 (to_leaderboard_entry 1 c6s) rfl

/-- Counterexample to C6 as stated: the provided filter exercise_id=0 is
falsy in Python, so the query returns the session whose exercise_id is 1,
which does not match the provided filter. -/
theorem C6_falsy_filter_counterexample :
    get_leaderboard [c6s] (some 0) none none 10 = [to_leaderboard_entry 1 c6s] ∧
    c6s.exercise_id = some 1 ∧ ¬ c6s.exercise_id = some 0 := by
  refine ⟨rfl, rfl, by decide⟩

theorem truthyScore_eq_none {s : MemoryExerciseSession} :
    truthyScore s = none ↔ ∀ v : ℚ, s.final_score = some v → v = 0 := by
  cases hfv : s.final_score with
  | none => simp [truthyScore, hfv]
  | some v =>
    simp only [truthyScore, hfv]
    by_cases h0 : v = 0
    · subst h0
      simp only [if_pos rfl]
      constructor
      · intro _ v' hv'
        obtain rfl := Option.some.inj hv'
        rfl
      · intro _; rfl
    · rw [if_neg h0]
      constructor
      · intro hcontra; cases hcontra
      · intro hall
        exact absurd (hall v rfl) h0

theorem truthyScore_eq_some {s : MemoryExerciseSession} {b : ℚ} :
    truthyScore s = some b ↔ s.final_score = some b ∧ b ≠ 0 := by
  cases hfv : s.final_score with
  | none => simp [truthyScore, hfv]
  | some v =>
    simp only [truthyScore, hfv]
    by_cases h0 : v = 0
    · subst h0
      simp only [if_pos rfl]
      constructor
      · intro hcontra; cases hcontra
      · rintro ⟨hb, hb0⟩
        obtain rfl := Option.some.inj hb
        exact absurd rfl hb0
    · rw [if_neg h0]
      constructor
      · intro hh
        obtain rfl := Option.some.inj hh
        exact ⟨rfl, h0⟩
      · rintro ⟨hb, _⟩
        obtain rfl := Option.some.inj hb
        rfl

theorem truthySeq_eq_none {s : MemoryExerciseSession} :
    truthySeq s = none ↔ ∀ m : ℕ, s.max_sequence_reached = some m → m = 0 := by
  cases hms : s.max_sequence_reached with
  | none => simp [truthySeq, hms]
  | some m =>
    simp only [truthySeq, hms]
    by_cases h0 : m = 0
    · subst h0
      simp only [if_pos rfl]
      constructor
      · intro _ m' hm'
        obtain rfl := Option.some.inj hm'
        rfl
      · intro _; rfl
    · rw [if_neg h0]
      constructor
      · intro hcontra; cases hcontra
      · intro hall
        exact absurd (hall m rfl) h0

theorem pos_time_eq_none {s : MemoryExerciseSession} :
    (if 0 < s.time_elapsed_ms then some s.time_elapsed_ms else none) = none ↔
      s.time_elapsed_ms = 0 := by
  by_cases hp : 0 < s.time_elapsed_ms
  · simp only [if_pos hp]
    constructor
    · intro hcontra; cases hcontra
    · intro h0; omega
  · simp only [if_neg hp]
    constructor
    · intro _; omega
    · intro _; trivial

/-- C7 (amended): best_accuracy is None exactly when there is no completed
session, fastest_time_ms is None exactly when no completed session has
positive elapsed time, but best_score and longest_sequence are None exactly
when no completed session has a truthy (non-null AND nonzero) value: a
stored final_score of 0.0 is skipped by the Python truthiness filter. When
a truthy score exists, best_score is the attained maximum of the truthy
scores. -/
theorem C7_stats_nullability (db : List MemoryExerciseSession) (user_id : ℤ) (ty : String)
    (st : MemoryExerciseStats) (h : statsFor db user_id ty = some st) :
    (st.best_score = none ↔
      ∀ s ∈ completedOf db user_id ty, ∀ v : ℚ, s.final_score = some v → v = 0) ∧
    (∀ s ∈ completedOf db user_id ty, ∀ v : ℚ, s.final_score = some v → v ≠ 0 →
      ∃ b, st.best_score = some b ∧ v ≤ b) ∧
    (∀ b : ℚ, st.best_score = some b →
      ∃ s ∈ completedOf db user_id ty, s.final_score = some b ∧ b ≠ 0) ∧
    (st.best_accuracy = none ↔ completedOf db user_id ty = []) ∧
    (st.fastest_time_ms = none ↔
      ∀ s ∈ completedOf db user_id ty, s.time_elapsed_ms = 0) ∧
    (st.longest_sequence = none ↔
      ∀ s ∈ completedOf db user_id ty, ∀ m : ℕ, s.max_sequence_reached = some m → m = 0) := by
  obtain ⟨hne, rfl⟩ := statsFor_spec h
  refine ⟨?_, ?_, ?_, ?_, ?_, ?_⟩
  · show listMax ((completedOf db user_id ty).filterMap truthyScore) = none ↔ _
    rw [listMax_eq_none_iff, List.filterMap_eq_nil_iff]
    simp only [truthyScore_eq_none]
  · intro s hs v hv h0
    have hmem : v ∈ (completedOf db user_id ty).filterMap truthyScore :=
      List.mem_filterMap.mpr ⟨s, hs, truthyScore_eq_some.mpr ⟨hv, h0⟩⟩
    exact le_listMax hmem
  · intro b hb
    have hmem := listMax_mem hb
    rcases List.mem_filterMap.mp hmem with ⟨s, hs, hts⟩
    rcases truthyScore_eq_some.mp hts with ⟨hfs, hb0⟩
    exact ⟨s, hs, hfs, hb0⟩
  · show listMax ((completedOf db user_id ty).map get_accuracy) = none ↔ _
    rw [listMax_eq_none_iff, List.map_eq_nil_iff]
  · show listMin ((completedOf db user_id ty).filterMap _) = none ↔ _
    rw [listMin_eq_none_iff, List.filterMap_eq_nil_iff]
    simp only [pos_time_eq_none]
  · show listMax ((completedOf db user_id ty).filterMap truthySeq) = none ↔ _
    rw [listMax_eq_none_iff, List.filterMap_eq_nil_iff]
    simp only [truthySeq_eq_none]

/-- Concrete completed session with final score 80 for the C7 witness. -/
def c7ws : MemoryExerciseSession where
  user_id := 1
  exercise_id := none
  exercise_type := "memory_cards"
  difficulty := "easy"
  config := ⟨none, none, none⟩
  is_completed := true
  completed_at := some 2
  total_moves := 10
  correct_moves := 8
  incorrect_moves := 2
  time_elapsed_ms := 1000
  max_sequence_reached := none
  final_score := some 80
  score_breakdown := none
  created_at := 0

/-- Witness for C7_stats_nullability: the truthy score 80 of c7ws is bounded
by the reported best score. -/
theorem C7_stats_nullability_witness :
    ∃ b, (statsRecord [c7ws] 1 "memory_cards").best_score = some b ∧ (80 : ℚ) ≤ b :=
  (C7_stats_nullability [c7ws] 1 "memory_cards" (statsRecord [c7ws] 1 "memory_cards")
    rfl).2.1 c7ws (by decide) 80 rfl (by norm_num)

/-- Concrete completed session whose final score is exactly 0.0. -/
def c7zs : MemoryExerciseSession where
  user_id := 1
  exercise_id := none
  exercise_type := "memory_cards"
  difficulty := "easy"
  config := ⟨none, none, none⟩
  is_completed := true
  completed_at := some 2
  total_moves := 0
  correct_moves := 0
  incorrect_moves := 0
  time_elapsed_ms := 0
  max_sequence_reached := none
  final_score := some 0
  score_breakdown := none
  created_at := 0

/-- Counterexample to C7 as stated: a completed session with the non-null
final score 0.0 yields best_score None, not 0.0. -/
theorem C7_zero_score_counterexample :
    c7zs.is_completed = true ∧ c7zs.final_score = some 0 ∧
    statsFor [c7zs] 1 "memory_cards" = some (statsRecord [c7zs] 1 "memory_cards") ∧
    (statsRecord [c7zs] 1 "memory_cards").best_score = none :=
  ⟨rfl, rfl, rfl, rfl⟩

theorem avg_none_iff (l : List MemoryExerciseSession) (q : ℚ) :
    (if l.isEmpty then none else some q) = none ↔ l.length = 0 := by
  by_cases hc : l.isEmpty
  · simp [hc, List.isEmpty_iff.mp hc]
  · have hne : l ≠ [] := fun hl => hc (List.isEmpty_iff.mpr hl)
    simp [hc, List.length_eq_zero, hne]

/-- C8: every returned stats record belongs to an exercise type the user has
at least one session of (types without sessions produce no record), and the
three average fields are None exactly when there are no completed attempts,
so the division by the completed count never divides by zero. -/
theorem C8_stats_presence (db : List MemoryExerciseSession) (user_id : ℤ)
    (st : MemoryExerciseStats) (h : st ∈ get_user_stats db user_id) :
    userTypeSessions db user_id st.exercise_type ≠ [] ∧
    (st.avg_score = none ↔ st.completed_attempts = 0) ∧
    (st.avg_accuracy = none ↔ st.completed_attempts = 0) ∧
    (st.avg_time_ms = none ↔ st.completed_attempts = 0) := by
  rcases List.mem_filterMap.mp h with ⟨ty, _, hsf⟩
  obtain ⟨hne, rfl⟩ := statsFor_spec hsf
  refine ⟨hne, ?_, ?_, ?_⟩ <;>
    · simp only [statsRecord]
      exact avg_none_iff _ _

/-- Incomplete session of type pattern_recall for the C8 witness. -/
def c8ws : MemoryExerciseSession where
  user_id := 1
  exercise_id := none
  exercise_type := "pattern_recall"
  difficulty := "medium"
  config := ⟨none, none, none⟩
  is_completed := false
  completed_at := none
  total_moves := 2
  correct_moves := 1
  incorrect_moves := 1
  time_elapsed_ms := 100
  max_sequence_reached := none
  final_score := none
  score_breakdown := none
  created_at := 0

/-- Witness for C8_stats_presence at a user with one incomplete
pattern_recall session. -/
theorem C8_stats_presence_witness :
    userTypeSessions [c8ws] 1 (statsRecord [c8ws] 1 "pattern_recall").exercise_type ≠ [] ∧
    ((statsRecord [c8ws] 1 "pattern_recall").avg_score = none ↔
      (statsRecord [c8ws] 1 "pattern_recall").completed_attempts = 0) ∧
    ((statsRecord [c8ws] 1 "pattern_recall").avg_accuracy = none ↔
      (statsRecord [c8ws] 1 "pattern_recall").completed_attempts = 0) ∧
    ((statsRecord [c8ws] 1 "pattern_recall").avg_time_ms = none ↔
      (statsRecord [c8ws] 1 "pattern_recall").completed_attempts = 0) :=
  C8_stats_presence [c8ws] 1 (statsRecord [c8ws] 1 "pattern_recall") (by decide)
